import Mathlib

/-!
Verification development for the `mmal` allocator (src/mmal.c).

The C code is shallowly embedded: machine addresses are natural numbers
(`0` plays the role of the null pointer), `size_t` arithmetic is modelled
over `Nat` with an explicit modulus `W = 2 ^ 64` wherever the C code can
wrap around, and the mutable heap is a record `Mem` holding the global
`first_arena` pointer together with partial maps from addresses to the
`Header` and `Arena` structures stored there, plus a byte memory for block
payloads.  Stateful C functions become functions `Mem → … → ERes _` where
`ERes` distinguishes normal results from undefined behaviour (`Err.crash`,
raised exactly where the C code dereferences an invalid or null pointer)
and from exhaustion of the explicit loop fuel (`Err.fuelOut`).
-/

/-- Size of a memory page used by `allign_page` (`PAGE_SIZE` in mmal.c,
128 KiB). -/
def PAGE_SIZE : Nat := 128 * 1024

/-- Number of `size_t` values: the modulus of 64-bit unsigned arithmetic. -/
def W : Nat := 2 ^ 64

/-- `sizeof(Header)` on an LP64 platform: one pointer plus two `size_t`. -/
def sizeofHeader : Nat := 24

/-- `sizeof(Arena)` on an LP64 platform: one pointer plus one `size_t`. -/
def sizeofArena : Nat := 16

/-- 64-bit unsigned subtraction `a - b` (for `a b < W`).  The summands are
ordered `W + a` so that `Nat.add`, which recurses on its second argument,
stays inert on a symbolic `a` instead of unfolding the `2 ^ 64` literal. -/
def usub (a b : Nat) : Nat := (W + a - b) % W

/-- 64-bit unsigned addition. -/
def uadd (a b : Nat) : Nat := (a + b) % W

/-- Contents of a `struct header`: next pointer in the cyclic block list,
usable size of the block, and the occupied size (`asize = 0` means the
block is free). -/
structure HeaderV where
  next : Nat
  size : Nat
  asize : Nat
deriving DecidableEq

/-- Contents of a `struct arena`: next pointer in the arena list and the
total size of the arena. -/
structure ArenaV where
  next : Nat
  size : Nat
deriving DecidableEq

/-- The allocator heap: the global `first_arena`, the arena structures and
block headers stored at each address, and the payload byte memory. -/
structure Mem where
  first_arena : Nat
  arena : Nat → Option ArenaV
  header : Nat → Option HeaderV
  bytes : Nat → Nat

/-- Reading the `Arena` at an address; reading through the null pointer has
no value (it is undefined behaviour in C). -/
def readArena (s : Mem) (a : Nat) : Option ArenaV :=
  if a = 0 then none else s.arena a

/-- Reading the `Header` at an address. -/
def readHeader (s : Mem) (a : Nat) : Option HeaderV :=
  if a = 0 then none else s.header a

/-- Storing an `Arena` structure at an address. -/
def Mem.setArena (s : Mem) (a : Nat) (v : ArenaV) : Mem :=
  { s with arena := fun x => if x = a then some v else s.arena x }

/-- Storing a `Header` structure at an address. -/
def Mem.setHeader (s : Mem) (a : Nat) (v : HeaderV) : Mem :=
  { s with header := fun x => if x = a then some v else s.header x }

/-- Outcomes that end a run abnormally: `crash` for undefined behaviour
(dereferencing an invalid pointer) and `fuelOut` when the explicit fuel of
a loop is exhausted. -/
inductive Err where
  | crash
  | fuelOut
deriving DecidableEq

/-- Result of running an embedded C computation. -/
abbrev ERes (α : Type) := Except Err α

/-- The field write `p->next = v` (crashes when no header lives at `p`). -/
def writeNext (s : Mem) (a v : Nat) : ERes Mem :=
  match readHeader s a with
  | none => .error .crash
  | some h => .ok (s.setHeader a ⟨v, h.size, h.asize⟩)

/-- The field write `p->asize = v`. -/
def writeAsize (s : Mem) (a v : Nat) : ERes Mem :=
  match readHeader s a with
  | none => .error .crash
  | some h => .ok (s.setHeader a ⟨h.next, h.size, v⟩)

/-- `memcpy(dst, src, n)` on the payload byte memory. -/
def memcpyBytes (s : Mem) (dst src n : Nat) : Mem :=
  { s with bytes := fun x =>
      if dst ≤ x ∧ x < dst + n then s.bytes (src + (x - dst)) else s.bytes x }

/-- `allign_page` from mmal.c:
`(size < PAGE_SIZE) ? PAGE_SIZE : ((size / PAGE_SIZE) + 1) * PAGE_SIZE`,
the multiplication performed in `size_t`. -/
def allign_page (size : Nat) : Nat :=
  if size < PAGE_SIZE then PAGE_SIZE else PAGE_SIZE * ((size / PAGE_SIZE) + 1) % W

/-- The body of `hdr_should_split` as a function of the header value: after
the `hdr == NULL || hdr->asize != 0 || size == 0` guard it returns
`(hdr->size - sizeof(Header) - size) > 0`, the subtractions performed in
`size_t` (hence wrapping modulo `W`). -/
def hdr_should_split_val (h : HeaderV) (size : Nat) : Bool :=
  if h.asize ≠ 0 ∨ size = 0 then false
  else decide (0 < (2 * W + h.size - sizeofHeader - size) % W)

/-- `hdr_should_split(hdr, size)`: a null `hdr` yields `false`, otherwise
the header is dereferenced. -/
def hdr_should_splitS (s : Mem) (hdr size : Nat) : ERes Bool :=
  if hdr = 0 then .ok false
  else
    match readHeader s hdr with
    | none => .error .crash
    | some h => .ok (hdr_should_split_val h size)

/-- `hdr_ctor(hdr, size)`: initialises a free header (`asize = 0`,
`next = NULL`).  A null `hdr` is a no-op; the non-positive-size diagnostic
`fprintf` has no effect on the state. -/
def hdr_ctor (s : Mem) (hdr size : Nat) : Mem :=
  if hdr = 0 then s else s.setHeader hdr ⟨0, size, 0⟩

/-- `hdr_split(hdr, req_size)`: places a new header after the first
`req_size` payload bytes.  The new block size
`hdr->size - req_size - sizeof(Header)` is computed in `size_t` (the second
subtraction can wrap).  Returns the new header's address together with the
updated heap; the guard failures return the null pointer unchanged. -/
def hdr_split (s : Mem) (hdr req_size : Nat) : ERes (Nat × Mem) :=
  if hdr = 0 then .ok (0, s)
  else
    match readHeader s hdr with
    | none => .error .crash
    | some h =>
      if req_size > h.size then .ok (0, s)
      else
        let new_hdr := hdr + sizeofHeader + req_size
        let newsize := usub (h.size - req_size) sizeofHeader
        -- hdr_ctor(new_hdr, …) followed by new_hdr->next = hdr->next
        let s1 := (hdr_ctor s new_hdr newsize).setHeader new_hdr ⟨h.next, newsize, 0⟩
        -- hdr->size = req_size and hdr->next = new_hdr
        let s2 := s1.setHeader hdr ⟨new_hdr, req_size, h.asize⟩
        .ok (new_hdr, s2)

/-- The arena-list scan inside `hdr_can_merge`: while the current arena has
a successor, the code requires `right->next` to equal the first header of
the *current* arena, returning `false` on a mismatch; reaching the last
arena answers `true` (scan passed). -/
def cmScan (s : Mem) (rightH cur : Nat) : Nat → ERes Bool
  | 0 => .error .fuelOut
  | fuel + 1 =>
    match readArena s cur with
    | none => .error .crash
    | some a =>
      if a.next ≠ 0 then
        match readHeader s rightH with
        | none => .error .crash
        | some rh =>
          if rh.next ≠ cur + sizeofArena then .ok false
          else cmScan s rightH a.next fuel
      else .ok true

/-- `hdr_can_merge(left, right)`: null arguments give `false`; then the
arena-list scan runs (dereferencing `first_arena`), and finally
`left->asize == 0 && right->asize == 0 && left->next == right &&
left != right && left < right` with C's short-circuit evaluation. -/
def hdr_can_merge (s : Mem) (left right fuel : Nat) : ERes Bool :=
  if left = 0 ∨ right = 0 then .ok false
  else
    match cmScan s right s.first_arena fuel with
    | .error e => .error e
    | .ok false => .ok false
    | .ok true =>
      match readHeader s left with
      | none => .error .crash
      | some l =>
        if l.asize ≠ 0 then .ok false
        else
          match readHeader s right with
          | none => .error .crash
          | some r =>
            .ok (decide (r.asize = 0) && decide (l.next = right) &&
                 decide (left ≠ right) && decide (left < right))

/-- `hdr_merge(left, right)`: after the guard
`left==NULL || right==NULL || left->next != right || left==right`,
performs `left->size += right->size + sizeof(Header)` (in `size_t`) and
`left->next = right->next`. -/
def hdr_merge (s : Mem) (left right : Nat) : ERes Mem :=
  if left = 0 ∨ right = 0 then .ok s
  else
    match readHeader s left with
    | none => .error .crash
    | some l =>
      if l.next ≠ right ∨ left = right then .ok s
      else
        match readHeader s right with
        | none => .error .crash
        | some r =>
          .ok (s.setHeader left ⟨r.next, (l.size + (r.size + sizeofHeader)) % W, l.asize⟩)

/-- The loop of `first_fit`: visit `cur`; while `cur->next != start` either
return `cur` when it is free and large enough or advance; on the last block
(whose successor is `start`) perform the same test and otherwise give up. -/
def ffLoop (s : Mem) (start size cur : Nat) : Nat → ERes (Option Nat)
  | 0 => .error .fuelOut
  | fuel + 1 =>
    match readHeader s cur with
    | none => .error .crash
    | some h =>
      if h.next ≠ start then
        if h.asize = 0 ∧ size ≤ h.size then .ok (some cur)
        else ffLoop s start size h.next fuel
      else
        if h.asize = 0 ∧ size ≤ h.size then .ok (some cur) else .ok none

/-- `first_fit(size)`: `NULL` for a zero size or an empty arena list,
otherwise the ring scan starting from the first arena's first block. -/
def first_fit (s : Mem) (size fuel : Nat) : ERes (Option Nat) :=
  if size = 0 ∨ s.first_arena = 0 then .ok none
  else ffLoop s (s.first_arena + sizeofArena) size (s.first_arena + sizeofArena) fuel

/-- The loop of `hdr_get_prev`: walk the ring from `hdr` until reaching the
block whose successor is `hdr`. -/
def gpLoop (s : Mem) (hdr cur : Nat) : Nat → ERes Nat
  | 0 => .error .fuelOut
  | fuel + 1 =>
    match readHeader s cur with
    | none => .error .crash
    | some h => if h.next ≠ hdr then gpLoop s hdr h.next fuel else .ok cur

/-- `hdr_get_prev(hdr)`: returns `hdr` itself when `first_arena` or `hdr`
is null, otherwise walks the ring to the predecessor. -/
def hdr_get_prev (s : Mem) (hdr fuel : Nat) : ERes Nat :=
  if s.first_arena = 0 ∨ hdr = 0 then .ok hdr
  else gpLoop s hdr hdr fuel

/-- The loop of `arena_append`: walk to the arena whose `next` is null and
attach `a` there. -/
def apLoop (s : Mem) (a cur : Nat) : Nat → ERes Mem
  | 0 => .error .fuelOut
  | fuel + 1 =>
    match readArena s cur with
    | none => .error .crash
    | some av =>
      if av.next ≠ 0 then apLoop s a av.next fuel
      else .ok (s.setArena cur ⟨a, av.size⟩)

/-- `arena_append(a)`: becomes the head if the list was empty, otherwise is
attached after the last arena. -/
def arena_append (s : Mem) (a fuel : Nat) : ERes Mem :=
  if s.first_arena = 0 then .ok { s with first_arena := a }
  else apLoop s a s.first_arena fuel

/-- `arena_alloc(req_size)`: the `req_size <= sizeof(Arena)+sizeof(Header)`
check only prints a diagnostic and the function *continues*; it then maps
`allign_page(req_size)` bytes.  The mapping call is modelled by the oracle
`mm`, which returns the address of a fresh region or `none` on denial (the
code compares `mmap`'s result against `NULL`; we charitably let a denied
mapping be observed as `NULL` there).  On success the arena structure is
initialised with `next = NULL` and the aligned size. -/
def arena_alloc (mm : Nat → Option Nat) (s : Mem) (req_size : Nat) :
    Option Nat × Mem :=
  let arena_size := allign_page req_size
  match mm arena_size with
  | none => (none, s)
  | some a => (some a, s.setArena a ⟨0, arena_size⟩)

/-- The tail shared by both branches of `mmalloc` once a candidate free
block is in hand: the `hdr_should_split`/`hdr_split` pair, the
`free_hdr->asize = size` write, and the `return &free_hdr[1]`. -/
def mmallocFinish (s : Mem) (free_hdr size : Nat) : ERes (Nat × Mem) :=
  match hdr_should_splitS s free_hdr size with
  | .error e => .error e
  | .ok b =>
    match (if b then hdr_split s free_hdr size else .ok (0, s)) with
    | .error e => .error e
    | .ok (_, s1) =>
      match writeAsize s1 free_hdr size with
      | .error e => .error e
      | .ok s2 => .ok (free_hdr + sizeofHeader, s2)

/-- The `first_fit`-miss branch of `mmalloc` (the `else` of lines 311-329):
request a new arena of `size + sizeof(Arena) + sizeof(Header)` bytes; when
`arena_alloc` yields `NULL` the code only prints a diagnostic and *keeps
going*: it appends the null arena and then reads `new_arena->size`, a null
dereference (`Err.crash`).  On success the fresh block is constructed,
spliced into the ring (`free_hdr->next = &first_arena[1]` followed by
`hdr_get_prev(&first_arena[1])->next = free_hdr`), split if advisable, and
returned. -/
def mmallocNewArena (mm : Nat → Option Nat) (s : Mem) (size fuel : Nat) :
    ERes (Nat × Mem) :=
  let res := arena_alloc mm s (uadd size (sizeofArena + sizeofHeader))
  let a := match res.1 with | none => 0 | some x => x
  match arena_append res.2 a fuel with
  | .error e => .error e
  | .ok s2 =>
    let free_hdr := a + sizeofArena
    match readArena s2 a with
    | none => .error .crash
    | some av =>
      let s3 := hdr_ctor s2 free_hdr (usub (usub av.size sizeofArena) sizeofHeader)
      let ringHead := s3.first_arena + sizeofArena
      match writeNext s3 free_hdr ringHead with
      | .error e => .error e
      | .ok s4 =>
        match hdr_get_prev s4 ringHead fuel with
        | .error e => .error e
        | .ok prev =>
          match writeNext s4 prev free_hdr with
          | .error e => .error e
          | .ok s5 => mmallocFinish s5 free_hdr size

/-- `mmalloc(size)`.  A zero size returns `NULL`.  On a `first_fit` hit the
block is split if advisable and returned; on a miss a new arena is mapped
and spliced in (`mmallocNewArena`). -/
def mmalloc (mm : Nat → Option Nat) (s : Mem) (size fuel : Nat) :
    ERes (Nat × Mem) :=
  if size = 0 then .ok (0, s)
  else
    match first_fit s size fuel with
    | .error e => .error e
    | .ok (some free_hdr) => mmallocFinish s free_hdr size
    | .ok none => mmallocNewArena mm s size fuel

/-- `mfree(ptr)`: a null pointer is a no-op.  Otherwise the header
immediately before `ptr` has its `asize` zeroed, a merge with the ring
successor is attempted, then a merge of the ring predecessor with the
block.  (`hdr_get_prev` appears twice in the C source — in the condition
and in the call — with identical results, its argument state being
unchanged by `hdr_can_merge`; the model evaluates it once.) -/
def mfree (s : Mem) (ptr fuel : Nat) : ERes Mem :=
  if ptr = 0 then .ok s
  else
    let free_hdr := usub ptr sizeofHeader
    match writeAsize s free_hdr 0 with
    | .error e => .error e
    | .ok s1 =>
      match readHeader s1 free_hdr with
      | none => .error .crash
      | some fh =>
        match hdr_can_merge s1 free_hdr fh.next fuel with
        | .error e => .error e
        | .ok b1 =>
          match (if b1 then hdr_merge s1 free_hdr fh.next else .ok s1) with
          | .error e => .error e
          | .ok s2 =>
            match hdr_get_prev s2 free_hdr fuel with
            | .error e => .error e
            | .ok prev =>
              match hdr_can_merge s2 prev free_hdr fuel with
              | .error e => .error e
              | .ok b2 => if b2 then hdr_merge s2 prev free_hdr else .ok s2

/-- The relocation tail of `mrealloc`: `mmalloc(size)` (whose result the C
code immediately rebases by `-1` and `+1`, so the `memcpy` destination and
the returned pointer are exactly the pointer `mmalloc` produced), a copy of
the *saved occupied size* `hdr_asize` bytes of payload, and `mfree` of the
old pointer. -/
def mreallocMove (mm : Nat → Option Nat) (s : Mem) (ptr size hdr_asize fuel : Nat) :
    ERes (Nat × Mem) :=
  match mmalloc mm s size fuel with
  | .error e => .error e
  | .ok (np, s1) =>
    let s2 := memcpyBytes s1 np ptr hdr_asize
    match mfree s2 ptr fuel with
    | .error e => .error e
    | .ok s3 => .ok (np, s3)

/-- `mrealloc(ptr, size)`.  Null `ptr` returns `NULL` at once (before the
zero-size test); `size == 0` frees and returns `NULL`.  A smaller size
splits in place; an equal size returns unchanged; a larger one grows in
place when the usable size already suffices, absorbs a free, large-enough,
`hdr_can_merge`-eligible successor, or else relocates via
`mmalloc`/`memcpy`/`mfree`. -/
def mrealloc (mm : Nat → Option Nat) (s : Mem) (ptr size fuel : Nat) :
    ERes (Nat × Mem) :=
  if ptr = 0 then .ok (0, s)
  else if size = 0 then
    match mfree s ptr fuel with
    | .error e => .error e
    | .ok s1 => .ok (0, s1)
  else
    let used_hdr := usub ptr sizeofHeader
    match readHeader s used_hdr with
    | none => .error .crash
    | some h =>
      if size < h.size then
        match writeAsize s used_hdr 0 with
        | .error e => .error e
        | .ok s1 =>
          match hdr_should_splitS s1 used_hdr size with
          | .error e => .error e
          | .ok b =>
            match (if b then hdr_split s1 used_hdr size else .ok (0, s1)) with
            | .error e => .error e
            | .ok (_, s2) =>
              match writeAsize s2 used_hdr size with
              | .error e => .error e
              | .ok s3 => .ok (ptr, s3)
      else if size = h.size then .ok (ptr, s)
      else
        if h.size ≥ size then
          -- dead branch (the enclosing case has size > h.size); kept to
          -- mirror the source
          match writeAsize s used_hdr size with
          | .error e => .error e
          | .ok s1 => .ok (ptr, s1)
        else
          let hdr_asize := h.asize
          match writeAsize s used_hdr 0 with
          | .error e => .error e
          | .ok s1 =>
            match readHeader s1 h.next with
            | none => .error .crash
            | some nxt =>
              -- `used_hdr->next->asize == 0 && used_hdr->next->size +
              -- sizeof(Header) >= size - used_hdr->size && hdr_can_merge(…)`
              -- with short-circuit evaluation
              if nxt.asize = 0 ∧ usub size h.size ≤ (nxt.size + sizeofHeader) % W then
                match hdr_can_merge s1 used_hdr h.next fuel with
                | .error e => .error e
                | .ok true =>
                  match hdr_merge s1 used_hdr h.next with
                  | .error e => .error e
                  | .ok s2 =>
                    match hdr_should_splitS s2 used_hdr size with
                    | .error e => .error e
                    | .ok b =>
                      match (if b then hdr_split s2 used_hdr size else .ok (0, s2)) with
                      | .error e => .error e
                      | .ok (_, s3) =>
                        match writeAsize s3 used_hdr size with
                        | .error e => .error e
                        | .ok s4 => .ok (ptr, s4)
                | .ok false => mreallocMove mm s1 ptr size hdr_asize fuel
              else mreallocMove mm s1 ptr size hdr_asize fuel

/-- Boolean outcome of a successful `hdr_can_merge` run. -/
def resBool (r : ERes Bool) : Option Bool :=
  match r with
  | .ok b => some b
  | .error _ => none

/-- Error outcome of a run, if any. -/
def resErr {α : Type} (r : ERes α) : Option Err :=
  match r with
  | .error e => some e
  | .ok _ => none

/-- Returned pointer of a successful `mmalloc`/`mrealloc` run. -/
def resPtr (r : ERes (Nat × Mem)) : Option Nat :=
  match r with
  | .ok (p, _) => some p
  | .error _ => none

/-- Header stored at `a` in the heap produced by a pointer-returning run. -/
def resHeaderAt (r : ERes (Nat × Mem)) (a : Nat) : Option HeaderV :=
  match r with
  | .ok (_, s) => readHeader s a
  | .error _ => none

/-- Header stored at `a` in the heap produced by an `mfree` run. -/
def memResHeaderAt (r : ERes Mem) (a : Nat) : Option HeaderV :=
  match r with
  | .ok s => readHeader s a
  | .error _ => none

/-- The heap before the allocator has ever been used: no arenas, no
headers. -/
def emptyMem : Mem :=
  { first_arena := 0, arena := fun _ => none, header := fun _ => none,
    bytes := fun _ => 0 }

/-- A mapping oracle for an operating system that denies every request. -/
def mmapFail : Nat → Option Nat := fun _ => none

/-- A heap with one arena at 1000 holding a single allocated block at 1016
(usable size 64, occupied size 8, payload at 1040); the ring is the
singleton `1016 → 1016`. -/
def c1State : Mem :=
  { first_arena := 1000,
    arena := fun a => if a = 1000 then some ⟨0, 131072⟩ else none,
    header := fun a => if a = 1016 then some ⟨1016, 64, 8⟩ else none,
    bytes := fun _ => 0 }

/-- C1: the claim is violated.  When no free block fits and the mapping
call fails, `mmalloc` does not return null: `arena_alloc`'s null result is
only reported by a diagnostic `fprintf`, after which `mmalloc` appends the
null arena and dereferences `new_arena->size` — undefined behaviour, not a
null return.  The same crash (not a null result) is what reaches the
caller of `mrealloc`'s relocation path: growing the 64-byte block of
`c1State` to 100 bytes with a denying operating system crashes. -/
theorem mmalloc_mapping_failure_crashes_instead_of_null :
    resErr (mmalloc mmapFail emptyMem 1 10) = some .crash ∧
    resErr (mrealloc mmapFail c1State 1040 100 10) = some .crash := by
  decide

/-- A heap holding a single free block of usable size 1 at 1016 (such tiny
free blocks are produced by legitimate splits: splitting a free block of
size `s + sizeof(Header) + 1` at request `s` leaves a remainder of size
1). -/
def c2State : Mem :=
  { first_arena := 1000,
    arena := fun a => if a = 1000 then some ⟨0, 131072⟩ else none,
    header := fun a => if a = 1016 then some ⟨1016, 1, 0⟩ else none,
    bytes := fun _ => 0 }

/-- C2: the claim is violated.  For the free header of usable size 1 and
request 1, the exact value `usable − header footprint − request`
is `1 − 24 − 1 < 0`, so the claim requires `hdr_should_split = false`; but
the C computation is done in `size_t` and wraps around, giving a huge
positive value, so the code returns `true`.  The split it licenses then
constructs a remainder header whose recorded size is the wrapped value
`2^64 − 24` — a remainder that certainly cannot hold its own header. -/
theorem hdr_should_split_wraps_below_zero :
    hdr_should_split_val ⟨1016, 1, 0⟩ 1 = true ∧
    ¬ ((1 : Int) - (sizeofHeader : Int) - 1 > 0) ∧
    resHeaderAt (hdr_split c2State 1016 1) 1041 = some ⟨1016, W - 24, 0⟩ ∧
    2 ^ 63 < W - 24 := by
  decide

/-- A heap with two arenas (at 1000 and 5000).  Arena 1 holds the blocks
`A = 1016`, `B = 1140`, `C = 1264` (A and B free and byte-adjacent:
`1016 + 24 + 100 = 1140`); arena 2 holds the ring tail `D = 5016`; the
ring is `A → B → C → D → A`. -/
def c3State : Mem :=
  { first_arena := 1000,
    arena := fun a =>
      if a = 1000 then some ⟨5000, 4096⟩
      else if a = 5000 then some ⟨0, 4096⟩ else none,
    header := fun a =>
      if a = 1016 then some ⟨1140, 100, 0⟩
      else if a = 1140 then some ⟨1264, 100, 0⟩
      else if a = 1264 then some ⟨5016, 100, 50⟩
      else if a = 5016 then some ⟨1016, 200, 0⟩ else none,
    bytes := fun _ => 0 }

/-- The same blocks of arena 1 with arena 2 absent (ring `A → B → C → A`). -/
def c3OneArena : Mem :=
  { first_arena := 1000,
    arena := fun a => if a = 1000 then some ⟨0, 4096⟩ else none,
    header := fun a =>
      if a = 1016 then some ⟨1140, 100, 0⟩
      else if a = 1140 then some ⟨1264, 100, 0⟩
      else if a = 1264 then some ⟨1016, 100, 50⟩ else none,
    bytes := fun _ => 0 }

/-- C3: the claim is violated.  In the two-arena heap `c3State` the pair
`(A, B) = (1016, 1140)` is free, ring-adjacent, address-ordered,
byte-adjacent, and lies entirely inside arena 1 — it is not separated by
any arena boundary — yet `hdr_can_merge` answers `false`: its arena scan
requires `right->next` to equal the *first* block of every non-final
arena, which rejects this pair.  With arena 2 removed (`c3OneArena`) the
very same pair is accepted, isolating the scan as the rejecting part. -/
theorem hdr_can_merge_scan_rejects_same_arena_pair :
    resBool (hdr_can_merge c3State 1016 1140 10) = some false ∧
    readHeader c3State 1016 = some ⟨1140, 100, 0⟩ ∧
    readHeader c3State 1140 = some ⟨1264, 100, 0⟩ ∧
    1016 + sizeofHeader + 100 = 1140 ∧
    resBool (hdr_can_merge c3OneArena 1016 1140 10) = some true := by
  decide

/-- `req_size = 40` does not strictly exceed
`sizeof(Arena) + sizeof(Header) = 40`. -/
def mmapAt4096 : Nat → Option Nat := fun _ => some 4096

/-- C4: the claim is violated.  For `req_size = 40`, which does not
strictly exceed `sizeof(Arena) + sizeof(Header)`, `arena_alloc` merely
prints "Arena Allocation Failed" and then proceeds: with the mapping call
succeeding at 4096, it returns that non-null arena, initialised to one
page, instead of failing with a null result. -/
theorem arena_alloc_small_request_not_rejected :
    sizeofArena + sizeofHeader = 40 ∧
    (arena_alloc mmapAt4096 emptyMem 40).1 = some 4096 ∧
    readArena (arena_alloc mmapAt4096 emptyMem 40).2 4096 = some ⟨0, PAGE_SIZE⟩ := by
  decide

/-- C5 counterexample: `PAGE_SIZE` itself is a positive multiple of the
page unit, so the claim demands `allign_page PAGE_SIZE = PAGE_SIZE`; the
code returns `2 * PAGE_SIZE`. -/
theorem allign_page_at_exact_multiple :
    allign_page PAGE_SIZE = 2 * PAGE_SIZE ∧
    2 * PAGE_SIZE ≠ PAGE_SIZE ∧
    PAGE_SIZE % PAGE_SIZE = 0 ∧ 0 < PAGE_SIZE := by
  decide

/-- The least multiple of `p` strictly greater than `n` is
`(n / p + 1) * p`. -/
theorem next_multiple_least (p n : Nat) (hp : 0 < p) :
    n < (n / p + 1) * p ∧ ∀ m, p ∣ m → n < m → (n / p + 1) * p ≤ m := by
  constructor
  · have h2 := Nat.div_add_mod n p
    have h1 := Nat.mod_lt n hp
    have h3 : (n / p + 1) * p = p * (n / p) + p := by ring
    rw [h3]
    linarith
  · intro m hdvd hlt
    obtain ⟨k, rfl⟩ := hdvd
    have hq : n / p < k := by
      rw [Nat.div_lt_iff_lt_mul hp, Nat.mul_comm]
      exact hlt
    calc (n / p + 1) * p ≤ k * p := Nat.mul_le_mul_right p hq
    _ = p * k := Nat.mul_comm k p

/-- C5 amended: away from `size_t` overflow, `allign_page n` is
`(n / PAGE_SIZE + 1) * PAGE_SIZE` — the *smallest multiple of the 128 KiB
page unit strictly greater than `n`* (so at least one page unit); in
particular, when `n` is already a positive multiple of 128 KiB the result
is `n + PAGE_SIZE`, not `n`. -/
theorem allign_page_strict_next_multiple (n : Nat) (hn : n + PAGE_SIZE < W) :
    allign_page n = (n / PAGE_SIZE + 1) * PAGE_SIZE ∧
    PAGE_SIZE ∣ allign_page n ∧
    n < allign_page n ∧
    ∀ m, PAGE_SIZE ∣ m → n < m → allign_page n ≤ m := by
  have hp : 0 < PAGE_SIZE := by decide
  have hle : (n / PAGE_SIZE + 1) * PAGE_SIZE ≤ n + PAGE_SIZE := by
    have hds := Nat.div_mul_le_self n PAGE_SIZE
    have : (n / PAGE_SIZE + 1) * PAGE_SIZE = n / PAGE_SIZE * PAGE_SIZE + PAGE_SIZE := by
      ring
    omega
  have heq : allign_page n = (n / PAGE_SIZE + 1) * PAGE_SIZE := by
    unfold allign_page
    by_cases h : n < PAGE_SIZE
    · simp [h, Nat.div_eq_of_lt h]
    · simp only [h, if_false]
      rw [Nat.mul_comm PAGE_SIZE (n / PAGE_SIZE + 1)]
      exact Nat.mod_eq_of_lt (lt_of_le_of_lt hle hn)
  obtain ⟨hlt, hmin⟩ := next_multiple_least PAGE_SIZE n hp
  refine ⟨heq, ?_, ?_, ?_⟩
  · rw [heq]; exact dvd_mul_left PAGE_SIZE _
  · rw [heq]; exact hlt
  · intro m hdvd hm
    rw [heq]; exact hmin m hdvd hm

/-- C5 witness for the amended statement, at `n = 5`. -/
theorem allign_page_strict_next_multiple_witness :
    5 + PAGE_SIZE < W ∧ allign_page 5 = (5 / PAGE_SIZE + 1) * PAGE_SIZE :=
  ⟨by decide, (allign_page_strict_next_multiple 5 (by decide)).1⟩

/-- The two-arena heap of `c3State` with the middle block `B = 1140` in
use (occupied size 77, payload at 1164) between the free, byte-adjacent
neighbours `A = 1016` and `C = 1264`. -/
def c6State : Mem :=
  { first_arena := 1000,
    arena := fun a =>
      if a = 1000 then some ⟨5000, 4096⟩
      else if a = 5000 then some ⟨0, 4096⟩ else none,
    header := fun a =>
      if a = 1016 then some ⟨1140, 100, 0⟩
      else if a = 1140 then some ⟨1264, 100, 77⟩
      else if a = 1264 then some ⟨5016, 100, 0⟩
      else if a = 5016 then some ⟨1016, 200, 0⟩ else none,
    bytes := fun _ => 0 }

/-- C6: the claim is violated.  In `c6State` the block `B = 1140` is freed
between the already-free ring neighbours `A = 1016` (its predecessor) and
`C = 1264` (its successor); the claim requires both coalescings, leaving
one free block of usable size `3 * 100 + 2 * 24`.  Instead, because
`hdr_can_merge`'s arena scan rejects both pairs (a second arena exists and
neither `C->next` nor `B->next` is the ring head), `mfree` merges
*neither*: all three headers survive, merely with `B.asize = 0`. -/
theorem mfree_between_free_neighbours_merges_nothing :
    memResHeaderAt (mfree c6State 1164 10) 1016 = some ⟨1140, 100, 0⟩ ∧
    memResHeaderAt (mfree c6State 1164 10) 1140 = some ⟨1264, 100, 0⟩ ∧
    memResHeaderAt (mfree c6State 1164 10) 1264 = some ⟨5016, 100, 0⟩ ∧
    readHeader c6State 1016 = some ⟨1140, 100, 0⟩ ∧
    readHeader c6State 1264 = some ⟨5016, 100, 0⟩ ∧
    1016 + sizeofHeader + 100 = 1140 ∧ 1140 + sizeofHeader + 100 = 1264 := by
  decide

/-- C9: `mmalloc(0)` returns null with the heap untouched;
`mrealloc(p, 0)` for non-null `p` behaves exactly as `mfree(p)` followed
by a null return; `mrealloc(NULL, n)` for `n > 0` returns null at once,
performing no allocation and leaving the heap unchanged. -/
theorem degenerate_requests_return_null (mm : Nat → Option Nat) (s : Mem)
    (p m fuel : Nat) (hp : p ≠ 0) (hm : 0 < m) :
    mmalloc mm s 0 fuel = .ok (0, s) ∧
    mrealloc mm s p 0 fuel = (mfree s p fuel).map (fun s1 => (0, s1)) ∧
    mrealloc mm s 0 m fuel = .ok (0, s) := by
  refine ⟨rfl, ?_, rfl⟩
  unfold mrealloc
  rw [if_neg hp, if_pos rfl]
  cases mfree s p fuel <;> simp [Except.map]

/-- C9 witness: the degenerate inputs at `p = 1040`, `m = 7` on the
one-block heap `c1State`. -/
theorem degenerate_requests_return_null_witness :
    (1040 : Nat) ≠ 0 ∧ (0 : Nat) < 7 ∧
    mmalloc mmapFail c1State 0 10 = .ok (0, c1State) :=
  ⟨by decide, by decide,
    (degenerate_requests_return_null mmapFail c1State 1040 7 10 (by decide)
      (by decide)).1⟩

/-- C10: `mrealloc(NULL, 0)` hits the null-pointer test before the
zero-size test, so it returns null immediately — nothing is freed and the
heap is returned unchanged. -/
theorem mrealloc_null_zero_is_noop (mm : Nat → Option Nat) (s : Mem)
    (fuel : Nat) : mrealloc mm s 0 0 fuel = .ok (0, s) := rfl

/-- The block addresses visited by one wrap of the ring scan: `cur` first,
following `next` links, stopping at the block whose successor is `start`
(`none` when a header is missing or the walk does not close within
`fuel`). -/
def ringFrom (s : Mem) (start cur : Nat) : Nat → Option (List Nat)
  | 0 => none
  | fuel + 1 =>
    match readHeader s cur with
    | none => none
    | some h =>
      if h.next = start then some [cur]
      else (ringFrom s start h.next fuel).map (fun l => cur :: l)

/-- The `first_fit` acceptance test for the block at `a`: a header lives
there, is free, and its usable size covers the request. -/
def isFit (s : Mem) (a size : Nat) : Bool :=
  match readHeader s a with
  | none => false
  | some h => decide (h.asize = 0 ∧ size ≤ h.size)

/-- The `first_fit` loop returns exactly the first visited block satisfying
the acceptance test, and `none` when no visited block does. -/
theorem ffLoop_eq (s : Mem) (start size : Nat) :
    ∀ fuel cur l, ringFrom s start cur fuel = some l →
      ffLoop s start size cur fuel = .ok (l.find? fun a => isFit s a size) := by
  intro fuel
  induction fuel with
  | zero => intro cur l h; simp [ringFrom] at h
  | succ n ih =>
    intro cur l h
    unfold ringFrom at h
    unfold ffLoop
    cases hh : readHeader s cur with
    | none => rw [hh] at h; simp at h
    | some hv =>
      rw [hh] at h
      dsimp only
      simp only at h
      by_cases hnext : hv.next = start
      · rw [if_pos hnext] at h
        injection h with h
        subst h
        rw [if_neg (by simpa using hnext)]
        by_cases hfit : hv.asize = 0 ∧ size ≤ hv.size
        · have hb : isFit s cur size = true := by
            simp [isFit, hh, hfit.1, hfit.2]
          rw [if_pos hfit]
          simp [List.find?_cons, hb]
        · have hb : isFit s cur size = false := by
            rw [isFit, hh, decide_eq_false_iff_not]
            exact hfit
          rw [if_neg hfit]
          simp [List.find?_cons, hb]
      · rw [if_neg hnext] at h
        obtain ⟨l1, hl1, rfl⟩ := Option.map_eq_some'.mp h
        rw [if_pos (by simpa using hnext)]
        by_cases hfit : hv.asize = 0 ∧ size ≤ hv.size
        · have hb : isFit s cur size = true := by
            simp [isFit, hh, hfit.1, hfit.2]
          rw [if_pos hfit]
          simp [List.find?_cons, hb]
        · have hb : isFit s cur size = false := by
            rw [isFit, hh, decide_eq_false_iff_not]
            exact hfit
          rw [if_neg hfit]
          simp only [List.find?_cons, hb]
          exact ih hv.next l1 hl1

/-- A heap as left by allocating one large block from a fresh arena and
freeing it: one arena at 1000 and a single free block at 1016 of usable
size `131072 - 40 = 131032` (payload at 1040), forming a singleton ring. -/
def c8State : Mem :=
  { first_arena := 1000,
    arena := fun a => if a = 1000 then some ⟨0, 131072⟩ else none,
    header := fun a => if a = 1016 then some ⟨1016, 131032, 0⟩ else none,
    bytes := fun _ => 0 }

/-- C8: `first_fit(size)` scans the ring from the first arena's first
block, wrapping exactly once (the visited blocks are `ringFrom`'s list),
and returns the first visited block that is free with usable size at least
`size`, or null when no visited block qualifies.  Consequently, on the
heap `c8State` obtained by freeing a large block, a smaller allocation
returns that freed block's payload address 1040 — and it does so even when
the operating system denies every mapping, so no new arena is involved. -/
theorem first_fit_returns_first_free_fit (s : Mem) (size fuel : Nat)
    (l : List Nat) (hsz : size ≠ 0) (hfa : s.first_arena ≠ 0)
    (hring : ringFrom s (s.first_arena + sizeofArena)
      (s.first_arena + sizeofArena) fuel = some l) :
    first_fit s size fuel = .ok (l.find? fun a => isFit s a size) ∧
    resPtr (mmalloc mmapFail c8State 100 20) = some 1040 := by
  constructor
  · unfold first_fit
    rw [if_neg (fun h => h.elim hsz hfa)]
    exact ffLoop_eq s _ size fuel _ l hring
  · decide

/-- C8 witness: the characterization applied to the singleton ring of
`c8State` with request 100. -/
theorem first_fit_returns_first_free_fit_witness :
    (100 : Nat) ≠ 0 ∧
    ringFrom c8State 1016 1016 5 = some [1016] ∧
    first_fit c8State 100 5 = .ok (([1016] : List Nat).find? fun a => isFit c8State a 100) :=
  ⟨by decide, by decide,
    (first_fit_returns_first_free_fit c8State 100 5 [1016] (by decide)
      (by decide) (by decide)).1⟩

/-- Storing a header leaves the payload byte memory untouched. -/
theorem setHeader_bytes (s : Mem) (a : Nat) (v : HeaderV) :
    (s.setHeader a v).bytes = s.bytes := rfl

/-- Storing an arena structure leaves the payload byte memory untouched. -/
theorem setArena_bytes (s : Mem) (a : Nat) (v : ArenaV) :
    (s.setArena a v).bytes = s.bytes := rfl

/-- `hdr_ctor` writes only header fields. -/
theorem hdr_ctor_bytes (s : Mem) (hdr size : Nat) :
    (hdr_ctor s hdr size).bytes = s.bytes := by
  unfold hdr_ctor
  split
  · rfl
  · rfl

/-- `p->next = v` writes only header fields. -/
theorem writeNext_bytes {s : Mem} {a v : Nat} {s1 : Mem}
    (h : writeNext s a v = .ok s1) : s1.bytes = s.bytes := by
  unfold writeNext at h
  cases hr : readHeader s a with
  | none => rw [hr] at h; exact Except.noConfusion h
  | some hv => rw [hr] at h; dsimp only at h; cases h; rfl

/-- `p->asize = v` writes only header fields. -/
theorem writeAsize_bytes {s : Mem} {a v : Nat} {s1 : Mem}
    (h : writeAsize s a v = .ok s1) : s1.bytes = s.bytes := by
  unfold writeAsize at h
  cases hr : readHeader s a with
  | none => rw [hr] at h; exact Except.noConfusion h
  | some hv => rw [hr] at h; dsimp only at h; cases h; rfl

/-- `hdr_split` writes only header fields. -/
theorem hdr_split_bytes {s : Mem} {hdr req : Nat} {r : Nat × Mem}
    (h : hdr_split s hdr req = .ok r) : r.2.bytes = s.bytes := by
  unfold hdr_split at h
  by_cases h0 : hdr = 0
  · rw [if_pos h0] at h; cases h; rfl
  · rw [if_neg h0] at h
    cases hr : readHeader s hdr with
    | none => rw [hr] at h; exact Except.noConfusion h
    | some hv =>
      rw [hr] at h
      dsimp only at h
      by_cases h1 : req > hv.size
      · rw [if_pos h1] at h; cases h; rfl
      · rw [if_neg h1] at h
        cases h
        dsimp only
        rw [setHeader_bytes, setHeader_bytes, hdr_ctor_bytes]

/-- `hdr_merge` writes only header fields. -/
theorem hdr_merge_bytes {s : Mem} {l r : Nat} {s1 : Mem}
    (h : hdr_merge s l r = .ok s1) : s1.bytes = s.bytes := by
  unfold hdr_merge at h
  by_cases h0 : l = 0 ∨ r = 0
  · rw [if_pos h0] at h; cases h; rfl
  · rw [if_neg h0] at h
    cases hl : readHeader s l with
    | none => rw [hl] at h; exact Except.noConfusion h
    | some lv =>
      rw [hl] at h
      dsimp only at h
      by_cases h1 : lv.next ≠ r ∨ l = r
      · rw [if_pos h1] at h; cases h; rfl
      · rw [if_neg h1] at h
        cases hr : readHeader s r with
        | none => rw [hr] at h; exact Except.noConfusion h
        | some rv => rw [hr] at h; dsimp only at h; cases h; rfl

/-- `arena_alloc` writes only an arena structure. -/
theorem arena_alloc_bytes (mm : Nat → Option Nat) (s : Mem) (req : Nat) :
    (arena_alloc mm s req).2.bytes = s.bytes := by
  unfold arena_alloc
  dsimp only
  cases mm (allign_page req) with
  | none => rfl
  | some a => rfl

/-- The `arena_append` walk writes only arena structures. -/
theorem apLoop_bytes {s : Mem} {a : Nat} :
    ∀ fuel cur {s1 : Mem}, apLoop s a cur fuel = .ok s1 → s1.bytes = s.bytes := by
  intro fuel
  induction fuel with
  | zero => intro cur s1 h; exact Except.noConfusion h
  | succ n ih =>
    intro cur s1 h
    unfold apLoop at h
    cases hr : readArena s cur with
    | none => rw [hr] at h; exact Except.noConfusion h
    | some av =>
      rw [hr] at h
      dsimp only at h
      by_cases h1 : av.next ≠ 0
      · rw [if_pos h1] at h; exact ih av.next h
      · rw [if_neg h1] at h; cases h; rfl

/-- `arena_append` writes only arena structures and `first_arena`. -/
theorem arena_append_bytes {s : Mem} {a fuel : Nat} {s1 : Mem}
    (h : arena_append s a fuel = .ok s1) : s1.bytes = s.bytes := by
  unfold arena_append at h
  by_cases h0 : s.first_arena = 0
  · rw [if_pos h0] at h; cases h; rfl
  · rw [if_neg h0] at h; exact apLoop_bytes fuel s.first_arena h

/-- The common allocation tail writes only header fields. -/
theorem mmallocFinish_bytes {s : Mem} {f z : Nat} {r : Nat × Mem}
    (h : mmallocFinish s f z = .ok r) : r.2.bytes = s.bytes := by
  unfold mmallocFinish at h
  cases hb : hdr_should_splitS s f z with
  | error e => rw [hb] at h; exact Except.noConfusion h
  | ok b =>
    rw [hb] at h
    dsimp only at h
    cases hsp : (if b then hdr_split s f z else .ok (0, s)) with
    | error e => rw [hsp] at h; exact Except.noConfusion h
    | ok q =>
      obtain ⟨qn, s1⟩ := q
      rw [hsp] at h
      dsimp only at h
      have hsb : s1.bytes = s.bytes := by
        by_cases hbb : b
        · rw [if_pos hbb] at hsp; exact hdr_split_bytes hsp
        · rw [if_neg hbb] at hsp; cases hsp; rfl
      cases hw : writeAsize s1 f z with
      | error e => rw [hw] at h; exact Except.noConfusion h
      | ok s2 =>
        rw [hw] at h
        cases h
        dsimp only
        rw [writeAsize_bytes hw, hsb]

/-- The new-arena branch of `mmalloc` never touches payload bytes. -/
theorem mmallocNewArena_bytes {mm : Nat → Option Nat} {s : Mem}
    {z fuel : Nat} {r : Nat × Mem} (h : mmallocNewArena mm s z fuel = .ok r) :
    r.2.bytes = s.bytes := by
  unfold mmallocNewArena at h
  dsimp only at h
  generalize hA : (match (arena_alloc mm s (uadd z (sizeofArena + sizeofHeader))).1 with
    | none => 0 | some x => x) = A at h
  have hres : (arena_alloc mm s (uadd z (sizeofArena + sizeofHeader))).2.bytes = s.bytes :=
    arena_alloc_bytes mm s (uadd z (sizeofArena + sizeofHeader))
  generalize hS0 : (arena_alloc mm s (uadd z (sizeofArena + sizeofHeader))).2 = s0 at h hres
  cases hap : arena_append s0 A fuel with
  | error e => rw [hap] at h; exact Except.noConfusion h
  | ok s2 =>
    rw [hap] at h
    dsimp only at h
    have hb2 : s2.bytes = s.bytes := by rw [arena_append_bytes hap, hres]
    cases hra : readArena s2 A with
    | none => rw [hra] at h; exact Except.noConfusion h
    | some av =>
      rw [hra] at h
      dsimp only at h
      generalize hS3 : hdr_ctor s2 (A + sizeofArena)
        (usub (usub av.size sizeofArena) sizeofHeader) = s3 at h
      have hb3 : s3.bytes = s.bytes := by rw [← hS3, hdr_ctor_bytes]; exact hb2
      cases hwn : writeNext s3 (A + sizeofArena) (s3.first_arena + sizeofArena) with
      | error e => rw [hwn] at h; exact Except.noConfusion h
      | ok s4 =>
        rw [hwn] at h
        dsimp only at h
        have hb4 : s4.bytes = s.bytes := by rw [writeNext_bytes hwn, hb3]
        cases hgp : hdr_get_prev s4 (s3.first_arena + sizeofArena) fuel with
        | error e => rw [hgp] at h; exact Except.noConfusion h
        | ok prev =>
          rw [hgp] at h
          dsimp only at h
          cases hwn2 : writeNext s4 prev (A + sizeofArena) with
          | error e => rw [hwn2] at h; exact Except.noConfusion h
          | ok s5 =>
            rw [hwn2] at h
            dsimp only at h
            rw [mmallocFinish_bytes h, writeNext_bytes hwn2, hb4]

/-- `mmalloc` never touches payload bytes. -/
theorem mmalloc_bytes {mm : Nat → Option Nat} {s : Mem} {z fuel : Nat}
    {r : Nat × Mem} (h : mmalloc mm s z fuel = .ok r) : r.2.bytes = s.bytes := by
  unfold mmalloc at h
  by_cases hz : z = 0
  · rw [if_pos hz] at h; cases h; rfl
  · rw [if_neg hz] at h
    cases hf : first_fit s z fuel with
    | error e => rw [hf] at h; exact Except.noConfusion h
    | ok o =>
      rw [hf] at h
      cases o with
      | some fh => exact mmallocFinish_bytes h
      | none => exact mmallocNewArena_bytes h

/-- `mfree` never touches payload bytes. -/
theorem mfree_bytes {s : Mem} {p fuel : Nat} {s1 : Mem}
    (h : mfree s p fuel = .ok s1) : s1.bytes = s.bytes := by
  unfold mfree at h
  by_cases hp : p = 0
  · rw [if_pos hp] at h; cases h; rfl
  · rw [if_neg hp] at h
    dsimp only at h
    cases hw : writeAsize s (usub p sizeofHeader) 0 with
    | error e => rw [hw] at h; exact Except.noConfusion h
    | ok t1 =>
      rw [hw] at h
      dsimp only at h
      have hb1 : t1.bytes = s.bytes := writeAsize_bytes hw
      cases hr : readHeader t1 (usub p sizeofHeader) with
      | none => simp only [hr] at h; exact Except.noConfusion h
      | some fh =>
        simp only [hr] at h
        cases hcm : hdr_can_merge t1 (usub p sizeofHeader) fh.next fuel with
        | error e => simp only [hcm] at h; exact Except.noConfusion h
        | ok b1 =>
          simp only [hcm] at h
          cases hmg : (if b1 then hdr_merge t1 (usub p sizeofHeader) fh.next
              else .ok t1) with
          | error e => simp only [hmg] at h; exact Except.noConfusion h
          | ok t2 =>
            simp only [hmg] at h
            have hb2 : t2.bytes = s.bytes := by
              by_cases hbb : b1
              · rw [if_pos hbb] at hmg; rw [hdr_merge_bytes hmg, hb1]
              · rw [if_neg hbb] at hmg; cases hmg; exact hb1
            cases hgp : hdr_get_prev t2 (usub p sizeofHeader) fuel with
            | error e => simp only [hgp] at h; exact Except.noConfusion h
            | ok prev =>
              simp only [hgp] at h
              cases hcm2 : hdr_can_merge t2 prev (usub p sizeofHeader) fuel with
              | error e => simp only [hcm2] at h; exact Except.noConfusion h
              | ok b2 =>
                simp only [hcm2] at h
                by_cases hbb2 : b2
                · rw [if_pos hbb2] at h; rw [hdr_merge_bytes h, hb2]
                · rw [if_neg hbb2] at h; cases h; exact hb2

/-- Reading inside the destination range of a `memcpy` yields the
corresponding source byte of the pre-copy heap. -/
theorem memcpyBytes_read_in (s : Mem) (dst src n x : Nat) (h1 : dst ≤ x)
    (h2 : x < dst + n) :
    (memcpyBytes s dst src n).bytes x = s.bytes (src + (x - dst)) := by
  unfold memcpyBytes
  dsimp only
  rw [if_pos ⟨h1, h2⟩]

/-- The byte-preservation contract of a reallocation run: on success, byte
`i` of the returned block equals byte `i` of the original payload at `p`;
aborted runs (crash / fuel exhaustion) carry no obligation. -/
def preservesAt (r : ERes (Nat × Mem)) (s : Mem) (p i : Nat) : Prop :=
  match r with
  | .ok (ret, s1) => s1.bytes (ret + i) = s.bytes (p + i)
  | .error _ => True

/-- The relocation tail `mmalloc`/`memcpy`/`mfree` moves the first `n`
payload bytes of `p` to the fresh block: only the `memcpy` touches byte
memory, and it reads the pre-run bytes. -/
theorem mreallocMove_preservesAt {mm : Nat → Option Nat} {s1 sB : Mem}
    {p m n fuel : Nat} (hb : s1.bytes = sB.bytes) (i : Nat) (hi : i < n) :
    preservesAt (mreallocMove mm s1 p m n fuel) sB p i := by
  unfold mreallocMove
  cases hma : mmalloc mm s1 m fuel with
  | error e => simp only [hma]; exact trivial
  | ok q =>
    obtain ⟨np, sA⟩ := q
    simp only [hma]
    cases hmf : mfree (memcpyBytes sA np p n) p fuel with
    | error e => simp only [hmf]; exact trivial
    | ok s3 =>
      simp only [hmf]
      show s3.bytes (np + i) = sB.bytes (p + i)
      rw [mfree_bytes hmf]
      rw [memcpyBytes_read_in sA np p n (np + i) (Nat.le_add_right np i) (by omega)]
      have hc : np + i - np = i := by omega
      rw [hc]
      have hA : sA.bytes = s1.bytes := mmalloc_bytes hma
      rw [hA, hb]

/-- C7: for a block whose header `h` records `h.asize` occupied bytes,
every successful `mrealloc` to a larger request `m > h.asize` preserves
the first `h.asize` payload bytes at the returned pointer — the shrink,
equal-size, in-place-grow and absorb paths return the same pointer without
touching byte memory, and the relocation path copies exactly the saved
occupied size `hdr_asize` (not the full usable size) into the fresh block
before freeing the old one. -/
theorem mrealloc_preserves_occupied_prefix (mm : Nat → Option Nat) (s : Mem)
    (p m fuel : Nat) (h : HeaderV)
    (hh : readHeader s (usub p sizeofHeader) = some h) (hm : h.asize < m)
    (i : Nat) (hi : i < h.asize) :
    preservesAt (mrealloc mm s p m fuel) s p i := by
  unfold mrealloc
  by_cases hp : p = 0
  · rw [if_pos hp]
    subst hp
    show s.bytes (0 + i) = s.bytes (0 + i)
    rfl
  · rw [if_neg hp]
    have hm0 : ¬ (m = 0) := by omega
    rw [if_neg hm0]
    dsimp only
    simp only [hh]
    by_cases h1 : m < h.size
    · rw [if_pos h1]
      cases hw : writeAsize s (usub p sizeofHeader) 0 with
      | error e => simp only [hw]; exact trivial
      | ok s1 =>
        simp only [hw]
        cases hsp : hdr_should_splitS s1 (usub p sizeofHeader) m with
        | error e => simp only [hsp]; exact trivial
        | ok b =>
          simp only [hsp]
          cases hspl : (if b then hdr_split s1 (usub p sizeofHeader) m
              else .ok (0, s1)) with
          | error e => simp only [hspl]; exact trivial
          | ok q =>
            obtain ⟨qn, s2⟩ := q
            simp only [hspl]
            cases hw2 : writeAsize s2 (usub p sizeofHeader) m with
            | error e => simp only [hw2]; exact trivial
            | ok s3 =>
              simp only [hw2]
              have e1 : s1.bytes = s.bytes := writeAsize_bytes hw
              have e2 : s2.bytes = s1.bytes := by
                by_cases hbb : b
                · rw [if_pos hbb] at hspl; exact hdr_split_bytes hspl
                · rw [if_neg hbb] at hspl; cases hspl; rfl
              have e3 : s3.bytes = s2.bytes := writeAsize_bytes hw2
              show s3.bytes (p + i) = s.bytes (p + i)
              rw [e3, e2, e1]
    · rw [if_neg h1]
      by_cases h2 : m = h.size
      · rw [if_pos h2]
        show s.bytes (p + i) = s.bytes (p + i)
        rfl
      · rw [if_neg h2]
        by_cases h3 : h.size ≥ m
        · rw [if_pos h3]
          cases hw : writeAsize s (usub p sizeofHeader) m with
          | error e => simp only [hw]; exact trivial
          | ok s1 =>
            simp only [hw]
            show s1.bytes (p + i) = s.bytes (p + i)
            rw [writeAsize_bytes hw]
        · rw [if_neg h3]
          cases hw : writeAsize s (usub p sizeofHeader) 0 with
          | error e => simp only [hw]; exact trivial
          | ok s1 =>
            simp only [hw]
            have e1 : s1.bytes = s.bytes := writeAsize_bytes hw
            cases hrn : readHeader s1 h.next with
            | none => simp only [hrn]; exact trivial
            | some nxt =>
              simp only [hrn]
              by_cases hcond : nxt.asize = 0 ∧
                  usub m h.size ≤ (nxt.size + sizeofHeader) % W
              · rw [if_pos hcond]
                cases hcm : hdr_can_merge s1 (usub p sizeofHeader) h.next fuel with
                | error e => simp only [hcm]; exact trivial
                | ok b =>
                  cases b with
                  | false =>
                    simp only [hcm]
                    exact mreallocMove_preservesAt e1 i hi
                  | true =>
                    simp only [hcm]
                    cases hmg : hdr_merge s1 (usub p sizeofHeader) h.next with
                    | error e => simp only [hmg]; exact trivial
                    | ok s2 =>
                      simp only [hmg]
                      have e2 : s2.bytes = s.bytes := by
                        rw [hdr_merge_bytes hmg, e1]
                      cases hsp : hdr_should_splitS s2 (usub p sizeofHeader) m with
                      | error e => simp only [hsp]; exact trivial
                      | ok bb =>
                        simp only [hsp]
                        cases hspl : (if bb then hdr_split s2 (usub p sizeofHeader) m
                            else .ok (0, s2)) with
                        | error e => simp only [hspl]; exact trivial
                        | ok q =>
                          obtain ⟨qn, s3⟩ := q
                          simp only [hspl]
                          cases hw2 : writeAsize s3 (usub p sizeofHeader) m with
                          | error e => simp only [hw2]; exact trivial
                          | ok s4 =>
                            simp only [hw2]
                            have e3 : s3.bytes = s.bytes := by
                              by_cases hbb : bb
                              · rw [if_pos hbb] at hspl
                                rw [hdr_split_bytes hspl, e2]
                              · rw [if_neg hbb] at hspl; cases hspl; exact e2
                            show s4.bytes (p + i) = s.bytes (p + i)
                            rw [writeAsize_bytes hw2, e3]
              · rw [if_neg hcond]
                exact mreallocMove_preservesAt e1 i hi

/-- A heap with a single allocated block at 1016 (usable 100, occupied 8,
payload at 1040) whose byte memory is the identity pattern. -/
def c7State : Mem :=
  { first_arena := 1000,
    arena := fun a => if a = 1000 then some ⟨0, 131072⟩ else none,
    header := fun a => if a = 1016 then some ⟨1016, 100, 8⟩ else none,
    bytes := fun x => x }

/-- C7 witness: growing the 8-byte-occupied block of `c7State` to 120
bytes (which relocates into a fresh arena mapped at 8192) preserves its
byte 3. -/
theorem mrealloc_preserves_occupied_prefix_witness :
    (3 : Nat) < 8 ∧
    preservesAt (mrealloc (fun _ => some 8192) c7State 1040 120 50) c7State 1040 3 :=
  ⟨by decide,
    mrealloc_preserves_occupied_prefix (fun _ => some 8192) c7State 1040 120 50
      ⟨1016, 100, 8⟩ (by decide) (by decide) 3 (by decide)⟩
